import Mathlib

/-!
Verification of the cargo-stripe generator's core logic: the component
registry (src/components.rs) and the module-declaration splicer together
with its callers (src/commands/add.rs).

Rust strings are embedded as `List Char` (all document content handled by
the tool is ASCII, so Rust's byte indices coincide with character indices),
and Rust's fallible functions returning `anyhow::Result` are embedded as
`Except String`.  Component names, which are only compared for equality and
concatenated, are kept as Lean `String`.
-/

namespace CargoStripe

/-! ## String-scanning primitives

These model the Rust `str` operations used by add.rs:
`str::contains(&str)` (substring test), `str::rfind(&str)` (byte index of
the last occurrence of a substring), `str::find(char)` (byte index of the
first occurrence of a character), and `str::trim_end_matches(&str)`
(repeated removal of a suffix). -/

/-- Substring containment, as Rust `content.contains(pat)`: `pat` occurs as a
contiguous sublist of `s`. -/
def containsSub (s pat : List Char) : Bool :=
  match s with
  | [] => pat.isPrefixOf []
  | _ :: rest => pat.isPrefixOf s || containsSub rest pat

/-- Index of the last occurrence of `pat` in `s`, as Rust `s.rfind(pat)`. -/
def rfindSub (s pat : List Char) : Option Nat :=
  match s with
  | [] => if pat.isPrefixOf [] then some 0 else none
  | c :: rest =>
    match rfindSub rest pat with
    | some i => some (i + 1)
    | none => if pat.isPrefixOf (c :: rest) then some 0 else none

/-- Index of the first occurrence of the character `target` in `s`, as Rust
`s.find(target)`. -/
def findCharIdx (s : List Char) (target : Char) : Option Nat :=
  match s with
  | [] => none
  | c :: rest => if c = target then some 0 else (findCharIdx rest target).map (· + 1)

/-- Repeated removal of the suffix `pat` from `s`, as Rust
`s.trim_end_matches(pat)` (which strips every trailing match, not just
one). -/
def stripAllSuffix (s pat : List Char) : List Char :=
  if h : pat ≠ [] ∧ pat.isSuffixOf s then
    stripAllSuffix (s.take (s.length - pat.length)) pat
  else s
termination_by s.length
decreasing_by
  have hs : pat.length ≤ s.length :=
    (List.isSuffixOf_iff_suffix.mp h.2).length_le
  have hp : 0 < pat.length := List.length_pos.mpr h.1
  simp only [List.length_take]
  omega

/-! ## The component registry (src/components.rs) -/

/-- Component file mapping for both extension and generated files
(`ComponentFiles` in src/components.rs). -/
structure ComponentFiles where
  extension_file : Option String
  generated_files : List String
deriving DecidableEq, Repr

/-- The elements inserted into the `HashSet` built by
`supported_components()`; as a set, insertion order is immaterial. -/
def supportedComponents : List String :=
  ["account", "balance", "balance_transaction", "bank_account", "card",
   "charge", "checkout_session", "credit_note", "currency", "customer",
   "customer_balance_transaction", "invoice", "issuing_authorization",
   "issuing_card", "issuing_dispute", "issuing_merchant_data",
   "issuing_transaction", "line_item", "login_links", "order",
   "payment_intent", "payment_method", "payment_source", "payout", "price",
   "product", "promotion_code", "refund", "review", "setup_intent",
   "source", "subscription", "test_clock", "token", "transfer_reversal",
   "usage_record", "webhook_endpoint", "webhook_events", "all"]

/-- `is_valid_component` in src/components.rs: membership in the supported
set. -/
def isValidComponent (component : String) : Bool :=
  supportedComponents.contains component

/-- The names that appear as explicit match arms of
`get_component_file_mapping` (every other name except "all" falls through
to the naming-convention default arm). -/
def explicitlyMappedComponents : List String :=
  ["account", "balance", "balance_transaction", "bank_account", "card",
   "charge", "checkout_session", "customer", "payment_intent",
   "payment_method", "product"]

/-- `get_component_file_mapping` in src/components.rs, arm for arm.  The
wildcard arm builds `{component}_ext.rs` / `{component}.rs` by the naming
convention. -/
def getComponentFileMapping (component : String) : Except String ComponentFiles :=
  match component with
  | "account" => .ok ⟨some "account_ext.rs",
      ["account.rs", "account_link.rs", "account_session.rs",
       "account_application_authorized.rs",
       "account_application_deauthorized.rs",
       "account_external_account_created.rs",
       "account_external_account_deleted.rs",
       "account_external_account_updated.rs", "account_updated.rs"]⟩
  | "balance" => .ok ⟨some "balance_ext.rs",
      ["balance.rs", "balance_amount_by_source_type.rs",
       "balance_available.rs"]⟩
  | "balance_transaction" => .ok ⟨some "balance_transaction_ext.rs",
      ["balance_transaction.rs"]⟩
  | "bank_account" => .ok ⟨some "bank_account_ext.rs", ["bank_account.rs"]⟩
  | "card" => .ok ⟨some "card.rs", ["card.rs"]⟩
  | "charge" => .ok ⟨some "charge_ext.rs",
      ["charge.rs", "charge_captured.rs", "charge_expired.rs",
       "charge_failed.rs", "charge_pending.rs", "charge_refunded.rs",
       "charge_succeeded.rs", "charge_updated.rs"]⟩
  | "checkout_session" => .ok ⟨some "checkout_session_ext.rs",
      ["checkout_session.rs", "checkout_session_async_payment_failed.rs",
       "checkout_session_async_payment_succeeded.rs",
       "checkout_session_completed.rs", "checkout_session_expired.rs"]⟩
  | "customer" => .ok ⟨some "customer_ext.rs",
      ["customer.rs", "customer_created.rs", "customer_deleted.rs",
       "customer_updated.rs", "customer_discount_created.rs",
       "customer_discount_deleted.rs", "customer_discount_updated.rs",
       "customer_source_created.rs", "customer_source_deleted.rs",
       "customer_source_expiring.rs", "customer_source_updated.rs",
       "customer_subscription_created.rs",
       "customer_subscription_deleted.rs",
       "customer_subscription_updated.rs", "customer_tax_id_created.rs",
       "customer_tax_id_deleted.rs", "customer_tax_id_updated.rs"]⟩
  | "payment_intent" => .ok ⟨some "payment_intent_ext.rs",
      ["payment_intent.rs", "payment_intent_amount_capturable_updated.rs",
       "payment_intent_canceled.rs", "payment_intent_created.rs",
       "payment_intent_partially_funded.rs",
       "payment_intent_payment_failed.rs", "payment_intent_processing.rs",
       "payment_intent_requires_action.rs", "payment_intent_succeeded.rs"]⟩
  | "payment_method" => .ok ⟨some "payment_method_ext.rs",
      ["payment_method.rs", "payment_method_attached.rs",
       "payment_method_automatically_updated.rs",
       "payment_method_detached.rs", "payment_method_updated.rs",
       "payment_method_card.rs", "payment_method_sepa_debit.rs"]⟩
  | "product" => .ok ⟨some "product_ext.rs",
      ["product.rs", "product_created.rs", "product_deleted.rs",
       "product_updated.rs"]⟩
  | "all" => .error "The 'all' component should be handled separately"
  | _ => .ok ⟨some (component ++ "_ext.rs"), [component ++ ".rs"]⟩

/-- `get_all_component_templates` in src/components.rs: the supported set
without "all", sorted lexicographically. -/
def getAllComponentTemplates : List String :=
  (supportedComponents.filter (fun c => c != "all")).mergeSort
    (fun a b => decide (a ≤ b))

/-- All filenames of a `ComponentFiles` value: the optional extension file
followed by the generated files. -/
def componentFilenames (cf : ComponentFiles) : List String :=
  cf.extension_file.toList ++ cf.generated_files

/-! ## The module-declaration splicer (src/commands/add.rs) -/

/-- The keyword-prefix substring `"pub mod "` that `add_module_to_content`
(and the identical inline logic of `update_mod_rs`) anchors on. -/
def pubModKw : List Char := "pub mod ".toList

/-- The canonical declaration line `format!("pub mod {};", ident)` built by
the update functions in src/commands/add.rs. -/
def pubModLine (ident : List Char) : List Char :=
  pubModKw ++ ident ++ [';']

/-- `add_module_to_content` in src/commands/add.rs: finds the last
occurrence of `"pub mod "`, then the first `';'` at or after it, and
splices `"\n" ++ module_line` in right after that terminator
(`format!("{}\n{}{}", before, module_line, after)` with
`insert_pos = pos + end_line + 1`); if either search fails, it appends
`"\n" ++ module_line` at the end instead. -/
def addModuleToContent (content module_line : List Char) : List Char :=
  match rfindSub content pubModKw with
  | some pos =>
    match findCharIdx (content.drop pos) ';' with
    | some endLine =>
      content.take (pos + endLine + 1) ++
        '\n' :: (module_line ++ content.drop (pos + endLine + 1))
    | none => content ++ '\n' :: module_line
  | none => content ++ '\n' :: module_line

/-- The splice operation of the spec: the duplicate check
`content.contains(&module_mod_line)` guarding `add_module_to_content`, as
performed by `update_resources_mod_rs` and `update_generated_mod_rs`
(`update_mod_rs` inlines the same logic verbatim). -/
def splice (content ident : List Char) : List Char :=
  if containsSub content (pubModLine ident) then content
  else addModuleToContent content (pubModLine ident)

/-! ## The declarations-document update functions (src/commands/add.rs)

Each Rust function reads a mod.rs file, mutates the text in memory and
conditionally writes it back.  The file system is abstracted: `existing`
is the content read from disk (`none` when the file is absent), and the
result pairs the computed content with the Boolean "was the file written
back". -/

/-- `update_mod_rs` in src/commands/add.rs.  A missing mod.rs is an error;
if the declaration is already present the function returns without
writing; otherwise it inserts the declaration (inline code identical to
`add_module_to_content`) and writes unconditionally. -/
def updateModRs (existing : Option (List Char)) (module : List Char) :
    Except String (List Char × Bool) :=
  match existing with
  | none => .error "mod.rs not found. Run 'cargo stripe init' to create core files."
  | some modContent =>
    if containsSub modContent (pubModLine module) then .ok (modContent, false)
    else .ok (addModuleToContent modContent (pubModLine module), true)

/-- The skeleton `update_resources_mod_rs` synthesizes when
resources/mod.rs does not exist. -/
def resourcesModSkeleton : List Char :=
  "//! Stripe API resources\n\npub mod types;\npub mod generated;\n".toList

/-- The module name `update_resources_mod_rs` declares for a component:
`component.trim_end_matches("_ext")` when the name ends with `"_ext"`,
otherwise the name itself. -/
def resourcesComponentModule (component : List Char) : List Char :=
  if ("_ext".toList).isSuffixOf component then
    stripAllSuffix component ("_ext".toList)
  else component

/-- `update_resources_mod_rs` in src/commands/add.rs: read or synthesize
the content, splice in the component's declaration and then the
submodule's declaration (each guarded by a duplicate check), and write
back exactly when the final content differs from the initial content. -/
def updateResourcesModRs (existing : Option (List Char))
    (component submodule : List Char) : List Char × Bool :=
  let modContent := existing.getD resourcesModSkeleton
  let updatedContent :=
    if !containsSub modContent (pubModLine (resourcesComponentModule component)) then
      addModuleToContent modContent (pubModLine (resourcesComponentModule component))
    else modContent
  let finalContent :=
    if !containsSub updatedContent (pubModLine submodule) then
      addModuleToContent updatedContent (pubModLine submodule)
    else updatedContent
  (finalContent, finalContent != modContent)

/-- The skeleton `update_generated_mod_rs` synthesizes when
resources/generated/mod.rs does not exist. -/
def generatedModSkeleton : List Char :=
  "//! Generated Stripe API resource definitions\n\n".toList

/-- The per-file loop of `update_generated_mod_rs`: for each generated
file, declare `file.trim_end_matches(".rs")` unless already present. -/
def addGeneratedFilesLoop (content : List Char) : List (List Char) → List Char
  | [] => content
  | file :: rest =>
    let moduleModLine := pubModLine (stripAllSuffix file (".rs".toList))
    addGeneratedFilesLoop
      (if !containsSub content moduleModLine then
        addModuleToContent content moduleModLine
      else content) rest

/-- `update_generated_mod_rs` in src/commands/add.rs: read or synthesize
the content, splice in one declaration per generated file, and write back
exactly when the result differs from the initial content. -/
def updateGeneratedModRs (existing : Option (List Char))
    (generatedFiles : List (List Char)) : List Char × Bool :=
  let modContent := existing.getD generatedModSkeleton
  let updatedContent := addGeneratedFilesLoop modContent generatedFiles
  (updatedContent, updatedContent != modContent)

/-! ## The bulk "all" operation (src/commands/add.rs)

`add_all_components` iterates `get_all_component_templates()`, calling
`add_single_component` on each; an `Ok` bumps `added_count`, an `Err` is
printed and the loop continues.  The file-system effect of
`add_single_component` is abstracted as an `outcome` oracle; the loop
returns the final count together with the (component, error) failures it
reported. -/

/-- The `for component in &templates` loop of `add_all_components`. -/
def addAllLoop (outcome : String → Except String Unit) :
    List String → Nat × List (String × String)
  | [] => (0, [])
  | component :: rest =>
    match outcome component with
    | .ok _ =>
      let r := addAllLoop outcome rest
      (r.1 + 1, r.2)
    | .error e =>
      let r := addAllLoop outcome rest
      (r.1, (component, e) :: r.2)

/-- `add_all_components` in src/commands/add.rs, restricted to its loop:
the count reported by the final success message and the failures printed
along the way. -/
def addAllComponents (outcome : String → Except String Unit) :
    Nat × List (String × String) :=
  addAllLoop outcome getAllComponentTemplates

/-! ## Lemmas about the scanning primitives -/

theorem isPrefixOf_append_self (pat B : List Char) :
    pat.isPrefixOf (pat ++ B) = true :=
  List.isPrefixOf_iff_prefix.mpr (List.prefix_append _ _)

theorem contains_of_isPrefixOf {s pat : List Char}
    (h : pat.isPrefixOf s = true) : containsSub s pat = true := by
  cases s with
  | nil => simpa [containsSub] using h
  | cons c rest => simp [containsSub, h]

theorem containsSub_pat_middle (A pat B : List Char) :
    containsSub (A ++ (pat ++ B)) pat = true := by
  induction A with
  | nil => exact contains_of_isPrefixOf (isPrefixOf_append_self pat B)
  | cons a A ih => simp [containsSub, ih]

theorem containsSub_newline_mid (X line Y : List Char) :
    containsSub (X ++ '\n' :: (line ++ Y)) line = true := by
  have h : X ++ '\n' :: (line ++ Y) = (X ++ ['\n']) ++ (line ++ Y) := by simp
  rw [h]
  exact containsSub_pat_middle _ _ _

theorem containsSub_newline_end (X line : List Char) :
    containsSub (X ++ '\n' :: line) line = true := by
  have h : X ++ '\n' :: line = (X ++ ['\n']) ++ (line ++ []) := by simp
  rw [h]
  exact containsSub_pat_middle _ _ _

theorem rfindSub_eq_none_iff (s pat : List Char) :
    rfindSub s pat = none ↔ containsSub s pat = false := by
  induction s with
  | nil =>
    by_cases hp : pat.isPrefixOf [] = true <;> simp [rfindSub, containsSub, hp]
  | cons c rest ih =>
    cases hr : rfindSub rest pat with
    | some i =>
      have hcr : containsSub rest pat = true := by
        cases hc : containsSub rest pat
        · exact absurd (ih.mpr hc) (by simp [hr])
        · rfl
      simp [rfindSub, containsSub, hr, hcr]
    | none =>
      have hcr : containsSub rest pat = false := ih.mp hr
      by_cases hp : pat.isPrefixOf (c :: rest) = true <;>
        simp [rfindSub, containsSub, hr, hcr, hp]

theorem rfindSub_head {c : Char} {rest pat : List Char}
    (hp : pat.isPrefixOf (c :: rest) = true)
    (hcon : containsSub rest pat = false) :
    rfindSub (c :: rest) pat = some 0 := by
  have hr : rfindSub rest pat = none := (rfindSub_eq_none_iff rest pat).mpr hcon
  simp [rfindSub, hr, hp]

theorem rfindSub_append (A : List Char) {R pat : List Char}
    (hR : rfindSub R pat = some 0) :
    rfindSub (A ++ R) pat = some A.length := by
  induction A with
  | nil => simpa using hR
  | cons a A ih => simp [rfindSub, ih]

theorem addModuleToContent_length (content line : List Char) :
    (addModuleToContent content line).length =
      content.length + line.length + 1 := by
  unfold addModuleToContent
  split
  · split
    · simp only [List.length_append, List.length_take, List.length_cons,
        List.length_drop]
      omega
    · simp only [List.length_append, List.length_cons]
      omega
  · simp only [List.length_append, List.length_cons]
    omega

theorem addModuleToContent_contains (content line : List Char) :
    containsSub (addModuleToContent content line) line = true := by
  unfold addModuleToContent
  split
  · split
    · exact containsSub_newline_mid _ _ _
    · exact containsSub_newline_end _ _
  · exact containsSub_newline_end _ _

/-! ## Claim theorems: the splicer -/

/-- C3: splice is idempotent: for every document and identifier, splicing
the same declaration twice equals splicing it once (the code's keyword is
fixed to `"pub mod "` and its terminator to `';'`). -/
theorem splice_idempotent (content ident : List Char) :
    splice (splice content ident) ident = splice content ident := by
  unfold splice
  by_cases h : containsSub content (pubModLine ident) = true
  · simp [h]
  · simp [h, addModuleToContent_contains]

/-- C4: splice is a byte-for-byte no-op whenever the document already
contains the exact canonical declaration line anywhere in its text. -/
theorem splice_noop_on_duplicate (content ident : List Char)
    (h : containsSub content (pubModLine ident) = true) :
    splice content ident = content := by
  simp [splice, h]

/-- Witness for C4 at a concrete document: the canonical line for `a` sits
in the middle of the document, and splice returns the document unchanged. -/
theorem splice_noop_on_duplicate_check :
    containsSub ("// intro\npub mod a;\npub mod b;\n".toList)
        (pubModLine ("a".toList)) = true ∧
      splice ("// intro\npub mod a;\npub mod b;\n".toList) ("a".toList) =
        "// intro\npub mod a;\npub mod b;\n".toList :=
  ⟨by decide, splice_noop_on_duplicate _ _ (by decide)⟩

/-- C6: when the keyword occurs but no terminator `';'` occurs between its
last occurrence and the end of the document, splice falls back to
appending the canonical line at the end, preceded by a newline. -/
theorem splice_missing_terminator_appends (content ident : List Char)
    (pos : Nat)
    (hdup : containsSub content (pubModLine ident) = false)
    (hkw : rfindSub content pubModKw = some pos)
    (hterm : findCharIdx (content.drop pos) ';' = none) :
    splice content ident = content ++ '\n' :: pubModLine ident := by
  have hsp : splice content ident = addModuleToContent content (pubModLine ident) := by
    simp [splice, hdup]
  rw [hsp]
  unfold addModuleToContent
  simp only [hkw, hterm]

/-- Witness for C6: a document whose only `"pub mod "` line is missing its
semicolon gets the new declaration appended at the end. -/
theorem splice_missing_terminator_appends_check :
    containsSub ("pub mod a".toList) (pubModLine ("b".toList)) = false ∧
      rfindSub ("pub mod a".toList) pubModKw = some 0 ∧
      findCharIdx (("pub mod a".toList).drop 0) ';' = none ∧
      splice ("pub mod a".toList) ("b".toList) =
        "pub mod a".toList ++ '\n' :: pubModLine ("b".toList) :=
  ⟨by decide, by decide, by decide,
    splice_missing_terminator_appends _ _ 0 (by decide) (by decide) (by decide)⟩

/-- C5: insertion anchoring: in a document holding the declarations of `a`
and then `b` (with arbitrary surrounding text, no further occurrence of
the keyword prefix after `b`'s declaration, and `c`'s line not yet
present), splicing `c` inserts the canonical line for `c` on its own new
line right after `b`'s terminator: everything before stays put, `c`'s
declaration lands strictly after `b`'s, and the original tail follows. -/
theorem splice_insertion_anchored (P M S : List Char)
    (hafter : containsSub ("ub mod b;".toList ++ S) pubModKw = false)
    (hnew : containsSub
        (P ++ "pub mod a;".toList ++ M ++ "pub mod b;".toList ++ S)
        (pubModLine ("c".toList)) = false) :
    splice (P ++ "pub mod a;".toList ++ M ++ "pub mod b;".toList ++ S)
        ("c".toList) =
      P ++ "pub mod a;".toList ++ M ++ "pub mod b;".toList ++
        ('\n' :: (pubModLine ("c".toList) ++ S)) := by
  set A : List Char := P ++ "pub mod a;".toList ++ M with hA
  have hbs : ("pub mod b;".toList : List Char) ++ S =
      pubModKw ++ ("b;".toList ++ S) := by
    have hx : ("pub mod b;".toList : List Char) = pubModKw ++ "b;".toList := by
      decide
    rw [hx, List.append_assoc]
  have hpre : pubModKw.isPrefixOf ("pub mod b;".toList ++ S) = true := by
    rw [hbs]
    exact isPrefixOf_append_self _ _
  have hR0 : rfindSub ("pub mod b;".toList ++ S) pubModKw = some 0 :=
    @rfindSub_head 'p' ("ub mod b;".toList ++ S) pubModKw hpre hafter
  have hrf : rfindSub (A ++ ("pub mod b;".toList ++ S)) pubModKw =
      some A.length := rfindSub_append A hR0
  have hfind : findCharIdx
      ((A ++ ("pub mod b;".toList ++ S)).drop A.length) ';' = some 9 := by
    rw [List.drop_left]
    rfl
  have hnc : containsSub (A ++ ("pub mod b;".toList ++ S))
      (pubModLine ("c".toList)) = false := by
    rw [← List.append_assoc]
    exact hnew
  have hgoal : A ++ "pub mod b;".toList ++ S =
      A ++ ("pub mod b;".toList ++ S) := List.append_assoc _ _ _
  rw [hgoal]
  unfold splice
  rw [if_neg (by simp only [hnc]; decide)]
  unfold addModuleToContent
  simp only [hrf, hfind]
  have hlen : (A ++ "pub mod b;".toList).length = A.length + 9 + 1 := by
    simp [List.length_append]
  have htake : List.take (A.length + 9 + 1)
      (A ++ ("pub mod b;".toList ++ S)) = A ++ "pub mod b;".toList := by
    rw [← List.append_assoc]
    exact List.take_left' hlen
  have hdrop : List.drop (A.length + 9 + 1)
      (A ++ ("pub mod b;".toList ++ S)) = S := by
    rw [← List.append_assoc]
    exact List.drop_left' hlen
  rw [htake, hdrop]

/-- Witness for C5 at the concrete two-declaration document
`"pub mod a;\npub mod b;\n"`: splicing `c` puts its declaration right
after `b`'s line. -/
theorem splice_insertion_anchored_check :
    splice (([] : List Char) ++ "pub mod a;".toList ++ "\n".toList ++
        "pub mod b;".toList ++ "\n".toList) ("c".toList) =
      ([] : List Char) ++ "pub mod a;".toList ++ "\n".toList ++
        "pub mod b;".toList ++
        ('\n' :: (pubModLine ("c".toList) ++ "\n".toList)) :=
  splice_insertion_anchored [] ("\n".toList) ("\n".toList)
    (by decide) (by decide)

/-- C7: splicing `foo` into the empty document produces exactly a leading
newline followed by the canonical line, `"\npub mod foo;"`. -/
theorem splice_empty_document :
    splice [] ("foo".toList) = "\npub mod foo;".toList := by decide

/-! ## Claim theorems: the component registry -/

/-- C1 counterexample: `"not_a_real_component"` is not a registry key and
is not `"all"`, yet `get_component_file_mapping` succeeds on it (with the
naming-convention default mapping) instead of failing with an
unknown-component error. -/
theorem resolve_unknown_component_succeeds :
    isValidComponent "not_a_real_component" = false ∧
      getComponentFileMapping "not_a_real_component" =
        Except.ok ⟨some "not_a_real_component_ext.rs",
          ["not_a_real_component.rs"]⟩ :=
  ⟨by decide, rfl⟩

/-- C1 as amended: a name that is neither `"all"` nor one of the eleven
explicitly mapped components resolves successfully to the
naming-convention default mapping (`<name>_ext.rs` plus `[<name>.rs]`);
only `"all"` makes `get_component_file_mapping` fail, with the
handled-separately error. -/
theorem getComponentFileMapping_default :
    (∀ component : String, component ∉ explicitlyMappedComponents →
      component ≠ "all" →
      getComponentFileMapping component =
        Except.ok ⟨some (component ++ "_ext.rs"), [component ++ ".rs"]⟩) ∧
    getComponentFileMapping "all" =
      Except.error "The 'all' component should be handled separately" := by
  refine ⟨fun component hmem hall => ?_, rfl⟩
  unfold getComponentFileMapping
  split <;> simp_all [explicitlyMappedComponents]

/-- Witness for the amended C1 at `"not_a_real_component"`. -/
theorem getComponentFileMapping_default_check :
    getComponentFileMapping "not_a_real_component" =
      Except.ok ⟨some ("not_a_real_component" ++ "_ext.rs"),
        ["not_a_real_component" ++ ".rs"]⟩ :=
  getComponentFileMapping_default.1 "not_a_real_component"
    (by decide) (by decide)

/-- C2 fails on the code at the registry key `"card"`: its mapping lists
`"card.rs"` both as the extension file and as a generated file, so the
filenames of the set are not pairwise distinct. -/
theorem card_mapping_duplicate_filename :
    isValidComponent "card" = true ∧
      getComponentFileMapping "card" =
        Except.ok ⟨some "card.rs", ["card.rs"]⟩ ∧
      componentFilenames ⟨some "card.rs", ["card.rs"]⟩ =
        ["card.rs", "card.rs"] ∧
      ¬ List.Nodup (componentFilenames ⟨some "card.rs", ["card.rs"]⟩) :=
  ⟨by decide, rfl, rfl, by decide⟩

/-- C10: every component name other than `"all"` — registry key or not —
resolves to a mapping with a present extension file and a non-empty
generated-files list; in particular every name produced by
`get_all_component_templates` does. -/
theorem getComponentFileMapping_total :
    (∀ component : String, component ≠ "all" →
      ∃ cf, getComponentFileMapping component = Except.ok cf ∧
        cf.extension_file.isSome = true ∧ cf.generated_files ≠ []) ∧
    (∀ component ∈ getAllComponentTemplates,
      ∃ cf, getComponentFileMapping component = Except.ok cf ∧
        cf.extension_file.isSome = true ∧ cf.generated_files ≠ []) := by
  have hmain : ∀ component : String, component ≠ "all" →
      ∃ cf, getComponentFileMapping component = Except.ok cf ∧
        cf.extension_file.isSome = true ∧ cf.generated_files ≠ [] := by
    intro component hall
    unfold getComponentFileMapping
    split <;> simp_all
  refine ⟨hmain, fun component hmem => hmain component ?_⟩
  rw [getAllComponentTemplates, List.mem_mergeSort, List.mem_filter] at hmem
  exact bne_iff_ne.mp hmem.2

/-- Witness for C10 at the registry key `"customer"`. -/
theorem getComponentFileMapping_total_check :
    ∃ cf, getComponentFileMapping "customer" = Except.ok cf ∧
      cf.extension_file.isSome = true ∧ cf.generated_files ≠ [] :=
  getComponentFileMapping_total.1 "customer" (by decide)

/-! ## Claim theorems: the bulk operation and the write-back guards -/

theorem addAllLoop_isolates (outcome : String → Except String Unit)
    (ts : List String) :
    (addAllLoop outcome ts).1 =
        (ts.filter (fun c => (outcome c).isOk)).length ∧
      (addAllLoop outcome ts).2.map Prod.fst =
        ts.filter (fun c => (outcome c).isOk = false) ∧
      (addAllLoop outcome ts).1 + (addAllLoop outcome ts).2.length =
        ts.length := by
  induction ts with
  | nil => simp [addAllLoop]
  | cons c rest ih =>
    obtain ⟨ih1, ih2, ih3⟩ := ih
    cases ho : outcome c with
    | ok u =>
      have hrec : addAllLoop outcome (c :: rest) =
          ((addAllLoop outcome rest).1 + 1, (addAllLoop outcome rest).2) := by
        simp [addAllLoop, ho]
      rw [hrec]
      refine ⟨?_, ?_, ?_⟩
      · simp [List.filter_cons, ho, Except.isOk, Except.toBool, ih1]
      · simp [List.filter_cons, ho, Except.isOk, Except.toBool, ih2]
      · simp only [List.length_cons]
        omega
    | error e =>
      have hrec : addAllLoop outcome (c :: rest) =
          ((addAllLoop outcome rest).1,
            (c, e) :: (addAllLoop outcome rest).2) := by
        simp [addAllLoop, ho]
      rw [hrec]
      refine ⟨?_, ?_, ?_⟩
      · simp [List.filter_cons, ho, Except.isOk, Except.toBool, ih1]
      · simp [List.filter_cons, ho, Except.isOk, Except.toBool, ih2]
      · simp only [List.length_cons]
        omega

/-- C8: bulk isolation: over the component list, the loop of
`add_all_components` attempts every component regardless of failures
(successes plus reported failures exhaust the list), the count in the
final success message is exactly the number of components whose addition
succeeded, and the failures reported one by one are exactly the components
that failed. -/
theorem add_all_components_isolates (outcome : String → Except String Unit) :
    (addAllComponents outcome).1 =
        (getAllComponentTemplates.filter (fun c => (outcome c).isOk)).length ∧
      (addAllComponents outcome).2.map Prod.fst =
        getAllComponentTemplates.filter (fun c => (outcome c).isOk = false) ∧
      (addAllComponents outcome).1 + (addAllComponents outcome).2.length =
        getAllComponentTemplates.length :=
  addAllLoop_isolates outcome getAllComponentTemplates

theorem addGeneratedFilesLoop_all_present (m : List Char)
    (files : List (List Char))
    (h : ∀ f ∈ files,
      containsSub m (pubModLine (stripAllSuffix f (".rs".toList))) = true) :
    addGeneratedFilesLoop m files = m := by
  induction files with
  | nil => rfl
  | cons f rest ih =>
    have hf := h f (by simp)
    simp only [addGeneratedFilesLoop, hf, Bool.not_true, Bool.false_eq_true,
      if_false]
    exact ih (fun g hg => h g (by simp [hg]))

/-- C9: each declarations-document update writes back exactly when the
computed content differs from the content read from disk (or synthesized
when the file was absent); in particular, when every needed declaration is
already present, nothing is written.  The first three conjuncts state the
write-iff-changed equivalence for `update_mod_rs`,
`update_resources_mod_rs` and `update_generated_mod_rs`; the last three
state the untouched-on-no-op direction concretely. -/
theorem update_functions_write_iff_changed :
    (∀ (m module : List Char) (r : List Char × Bool),
        updateModRs (some m) module = Except.ok r →
        (r.2 = true ↔ r.1 ≠ m)) ∧
      (∀ (existing : Option (List Char)) (component submodule : List Char),
        ((updateResourcesModRs existing component submodule).2 = true ↔
          (updateResourcesModRs existing component submodule).1 ≠
            existing.getD resourcesModSkeleton)) ∧
      (∀ (existing : Option (List Char)) (files : List (List Char)),
        ((updateGeneratedModRs existing files).2 = true ↔
          (updateGeneratedModRs existing files).1 ≠
            existing.getD generatedModSkeleton)) ∧
      (∀ (m module : List Char),
        containsSub m (pubModLine module) = true →
        updateModRs (some m) module = Except.ok (m, false)) ∧
      (∀ (existing : Option (List Char)) (component submodule : List Char),
        containsSub (existing.getD resourcesModSkeleton)
            (pubModLine (resourcesComponentModule component)) = true →
        containsSub (existing.getD resourcesModSkeleton)
            (pubModLine submodule) = true →
        updateResourcesModRs existing component submodule =
          (existing.getD resourcesModSkeleton, false)) ∧
      (∀ (existing : Option (List Char)) (files : List (List Char)),
        (∀ f ∈ files, containsSub (existing.getD generatedModSkeleton)
            (pubModLine (stripAllSuffix f (".rs".toList))) = true) →
        updateGeneratedModRs existing files =
          (existing.getD generatedModSkeleton, false)) := by
  refine ⟨?_, ?_, ?_, ?_, ?_, ?_⟩
  · intro m module r h
    have h0 : (if containsSub m (pubModLine module) = true then
          (Except.ok (m, false) : Except String (List Char × Bool))
        else Except.ok (addModuleToContent m (pubModLine module), true)) =
        Except.ok r := h
    by_cases hc : containsSub m (pubModLine module) = true
    · rw [if_pos hc] at h0
      injection h0 with h2
      subst h2
      simp
    · rw [if_neg hc] at h0
      injection h0 with h2
      subst h2
      constructor
      · intro _ heq
        have hl := congrArg List.length heq
        rw [addModuleToContent_length] at hl
        omega
      · intro _
        rfl
  · intro existing component submodule
    exact bne_iff_ne
  · intro existing files
    exact bne_iff_ne
  · intro m module hc
    simp [updateModRs, hc]
  · intro existing component submodule h1 h2
    simp [updateResourcesModRs, h1, h2, bne_self_eq_false]
  · intro existing files h
    simp [updateGeneratedModRs, addGeneratedFilesLoop_all_present _ _ h,
      bne_self_eq_false]

/-- Witness for C9: a mod.rs already declaring `resources` is left
unwritten, and an absent resources/mod.rs whose synthesized skeleton
already declares both requested modules is not written either. -/
theorem update_functions_write_iff_changed_check :
    updateModRs (some ("pub mod resources;".toList)) ("resources".toList) =
        Except.ok ("pub mod resources;".toList, false) ∧
      updateResourcesModRs none ("types".toList) ("generated".toList) =
        (resourcesModSkeleton, false) :=
  ⟨update_functions_write_iff_changed.2.2.2.1
      ("pub mod resources;".toList) ("resources".toList) (by decide),
    update_functions_write_iff_changed.2.2.2.2.1 none
      ("types".toList) ("generated".toList) (by decide) (by decide)⟩

end CargoStripe
